import Mathlib

/-!
Verification of the bulk SQL-dump loader of this repository
(`data/mysql_data/upload_to_railway.py` and `data/mysql_data/upload_to_aiven.py`).

Statements are modelled as `List Char` (the Python code works on `str`
character-by-character).  The three statement tokenizers, the chunk planner,
the per-chunk upload logic and the run drivers are embedded as executable
Lean functions; database and filesystem effects are abstracted by explicit
outcome parameters (statement outcomes, commit outcomes, connection-attempt
oracles), while all control flow and counting is translated from the source.
-/

/-- Python `str.strip()` whitespace set: space, tab, newline, carriage
return, vertical tab, form feed. -/
def isPySpace (c : Char) : Bool :=
  c = ' ' || c = '\t' || c = '\n' || c = '\r' || c = '\x0b' || c = '\x0c'

/-- Python `str.strip()`: drop leading and trailing whitespace. -/
def pyStrip (l : List Char) : List Char :=
  ((l.dropWhile isPySpace).reverse.dropWhile isPySpace).reverse

/-- Python `str.upper()` (ASCII, as used on the SQL keywords here). -/
def pyUpper (l : List Char) : List Char :=
  l.map Char.toUpper

/-- UTF-8 byte length of a character list, mirroring Python
`len(s.encode('utf-8'))`. -/
def utf8Len (l : List Char) : Nat :=
  (l.map Char.utf8Size).sum

/-- Scanner state shared by the two simple tokenizers (railway
`split_sql_file` and aiven `upload_chunk`): emitted statements, the
accumulated current statement, and the `in_string` / `escape_next` flags. -/
structure ScanState where
  stmts : List (List Char)
  cur : List Char
  inString : Bool
  escapeNext : Bool
deriving DecidableEq

/-- Initial scanner state: nothing emitted, empty accumulator, outside any
string, no pending escape. -/
def ScanState.init : ScanState :=
  ⟨[], [], false, false⟩

/-- Scanner state for the railway `upload_chunk` re-parser, which
additionally remembers which quote character opened the current string
(`string_char`). -/
structure QuoteScanState where
  stmts : List (List Char)
  cur : List Char
  inString : Bool
  escapeNext : Bool
  stringChar : Option Char
deriving DecidableEq

/-- Initial state of the quote-tracking scanner. -/
def QuoteScanState.init : QuoteScanState :=
  ⟨[], [], false, false, none⟩

namespace Railway

/-- Emission test of the railway `split_sql_file` tokenizer: the stripped
statement is kept when non-empty and not starting with `--`
(`upload_to_railway.py` line 120). -/
def splitEmit (t : List Char) : Bool :=
  !t.isEmpty && !(("\x2d\x2d".data).isPrefixOf t)

/-- One character of the railway `split_sql_file` tokenizer
(`upload_to_railway.py` lines 104-124).  Both quote characters blindly
toggle `in_string`; a `;` outside a string strips the accumulator and, if
the emission test passes, appends it with a `;` re-attached. -/
def splitScan (st : ScanState) (c : Char) : ScanState :=
  if st.escapeNext then
    { st with cur := st.cur ++ [c], escapeNext := false }
  else if c = '\\' then
    { st with cur := st.cur ++ [c], escapeNext := true }
  else
    let inS := if c = '\x22' ∨ c = '\x27' then !st.inString else st.inString
    if c = ';' ∧ inS = false then
      { stmts := st.stmts ++
          (if splitEmit (pyStrip st.cur) then [pyStrip st.cur ++ [';']] else []),
        cur := [], inString := inS, escapeNext := false }
    else
      { st with cur := st.cur ++ [c], inString := inS }

/-- The railway `split_sql_file` tokenizer: fold the scanner over the dump;
the trailing accumulator is discarded. -/
def splitStatements (content : List Char) : List (List Char) :=
  (content.foldl splitScan ScanState.init).stmts

/-- Classification used by railway `split_sql_file` (lines 130-134):
`stmt.upper().strip().startswith('CREATE')` or `... .startswith('USE')`. -/
def classifySchema (s : List Char) : Bool :=
  let u := pyStrip (pyUpper s)
  ("CREATE".data).isPrefixOf u || ("USE".data).isPrefixOf u

/-- The loop of lines 130-134 separating CREATE/USE statements from the
rest, keeping each side in original order. -/
def separateStatements : List (List Char) → List (List Char) × List (List Char)
  | [] => ([], [])
  | s :: rest =>
    let (cs, os) := separateStatements rest
    if classifySchema s then (s :: cs, os) else (cs, s :: os)

/-- Byte size the planner charges one statement: the statement plus the
newline appended when writing, `len((stmt + '\n').encode('utf-8'))`
(line 155). -/
def stmtByteSize (s : List Char) : Nat :=
  utf8Len s + 1

/-- Total byte size of a chunk; equals the byte size of the written chunk
file `'\n'.join(chunk) + '\n'` for a non-empty chunk. -/
def chunkByteSize (c : List (List Char)) : Nat :=
  (c.map stmtByteSize).sum

/-- Greedy packing loop of railway `split_sql_file` (lines 149-181):
close the current chunk when it is non-empty and adding the next statement
would exceed the budget; emit the final chunk when non-empty. -/
def packChunks (budget : Nat) : List (List Char) → List (List Char) → Nat →
    List (List (List Char))
  | [], cur, _ => if cur.isEmpty then [] else [cur]
  | s :: rest, cur, curSize =>
    let sz := stmtByteSize s
    if curSize > 0 ∧ curSize + sz > budget then
      cur :: packChunks budget rest [s] sz
    else
      packChunks budget rest (cur ++ [s]) (curSize + sz)

/-- The railway chunk planner: chunk #1 is all CREATE/USE-classified
statements (written regardless of size, lines 136-146); the remaining
statements are greedily packed under the byte budget. -/
def planChunks (budget : Nat) (stmts : List (List Char)) :
    List (List (List Char)) :=
  (separateStatements stmts).1 :: packChunks budget (separateStatements stmts).2 [] 0

/-- `split_sql_file` of `upload_to_railway.py`: tokenize the dump, then plan
chunks with a megabyte budget. -/
def split_sql_file (chunk_size_mb : Nat) (content : List Char) :
    List (List (List Char)) :=
  planChunks (chunk_size_mb * 1024 * 1024) (splitStatements content)

/-- Content of a written chunk file: `'\n'.join(stmts) + '\n'`
(lines 138, 161, 178). -/
def writeChunk (stmts : List (List Char)) : List Char :=
  List.intercalate ['\n'] stmts ++ ['\n']

/-- Emission test of the railway `upload_chunk` re-parser (lines 296-299):
non-empty, not starting with `--` or `/*`, and not starting (case
insensitively) with `DELIMITER`. -/
def uploadEmit (t : List Char) : Bool :=
  !t.isEmpty && !(("\x2d\x2d".data).isPrefixOf t) &&
    !(("/\x2a".data).isPrefixOf t) &&
    !(("DELIMITER".data).isPrefixOf (pyUpper t))

/-- One character of the railway `upload_chunk` re-parser (lines 275-303),
which tracks the opening quote character: only a matching unescaped quote
closes a string. -/
def uploadScan (st : QuoteScanState) (c : Char) : QuoteScanState :=
  if st.escapeNext then
    { st with cur := st.cur ++ [c], escapeNext := false }
  else if c = '\\' then
    { st with cur := st.cur ++ [c], escapeNext := true }
  else
    let p :=
      if c = '\x22' ∨ c = '\x27' then
        if st.inString = false then (true, some c)
        else if st.stringChar = some c then (false, (none : Option Char))
        else (st.inString, st.stringChar)
      else (st.inString, st.stringChar)
    if c = ';' ∧ p.1 = false then
      { stmts := st.stmts ++
          (if uploadEmit (pyStrip st.cur) then [pyStrip st.cur] else []),
        cur := [], inString := p.1, escapeNext := false, stringChar := p.2 }
    else
      { st with cur := st.cur ++ [c], inString := p.1, stringChar := p.2 }

/-- The railway `upload_chunk` statement re-parser: fold the quote-tracking
scanner over the chunk file content; the trailing accumulator is
discarded. -/
def parseStatements (content : List Char) : List (List Char) :=
  (content.foldl uploadScan QuoteScanState.init).stmts

end Railway

namespace Aiven

/-- Emission test of the aiven `upload_chunk` tokenizer (line 212):
non-empty and not starting with `--` or `/*`. -/
def splitEmit (t : List Char) : Bool :=
  !t.isEmpty && !(("\x2d\x2d".data).isPrefixOf t) && !(("/\x2a".data).isPrefixOf t)

/-- One character of the aiven `upload_chunk` tokenizer
(`upload_to_aiven.py` lines 196-216).  Only a single quote toggles
`in_string`; double quotes are ordinary characters. -/
def splitScan (st : ScanState) (c : Char) : ScanState :=
  if st.escapeNext then
    { st with cur := st.cur ++ [c], escapeNext := false }
  else if c = '\\' then
    { st with cur := st.cur ++ [c], escapeNext := true }
  else
    let inS := if c = '\x27' then !st.inString else st.inString
    if c = ';' ∧ inS = false then
      { stmts := st.stmts ++
          (if splitEmit (pyStrip st.cur) then [pyStrip st.cur] else []),
        cur := [], inString := inS, escapeNext := false }
    else
      { st with cur := st.cur ++ [c], inString := inS }

/-- The aiven `upload_chunk` statement tokenizer. -/
def splitStatements (content : List Char) : List (List Char) :=
  (content.foldl splitScan ScanState.init).stmts

end Aiven

/-- Abstract outcome of executing one SQL statement against the database:
it succeeds, fails with an ordinary error, or fails with an error whose
message matches the storage-full test (`"table"` and `"full"` in the
message). -/
inductive StmtRes where
  | ok
  | plainErr
  | storageErr
deriving DecidableEq

/-- What `upload_chunk` reports for one chunk: the returned success flag,
the statement success and error counters, and whether a rollback was
attempted. -/
structure ChunkReport where
  success : Bool
  okCount : Nat
  errCount : Nat
  rolledBack : Bool
deriving DecidableEq

namespace Railway

/-- Statement loop of railway `upload_chunk` (lines 313-338): count
successes and errors; no statement outcome aborts the chunk (the
storage-full test only appears in the outer connection-error handler). -/
def execStatements : List StmtRes → Nat → Nat → Nat × Nat
  | [], s, e => (s, e)
  | .ok :: rest, s, e => execStatements rest (s + 1) e
  | .plainErr :: rest, s, e => execStatements rest s (e + 1)
  | .storageErr :: rest, s, e => execStatements rest s (e + 1)

/-- Railway `upload_chunk` (lines 313-367) after a successful connection:
run all statements, then commit; a failed final commit is caught, a
rollback is attempted, and the function still returns
`True, success_count, error_count`. -/
def upload_chunk (outcomes : List StmtRes) (commitOk : Bool) : ChunkReport :=
  let p := execStatements outcomes 0 0
  { success := true, okCount := p.1, errCount := p.2, rolledBack := !commitOk }

/-- Outcome of one attempt at uploading one chunk, as seen by the chunked
driver: the returned flag and the two counters. -/
structure AttemptOutcome where
  ok : Bool
  okCount : Nat
  errCount : Nat

/-- First pass of `upload_sql_file_chunked` (lines 427-442): accumulate
totals for successful chunks, and append failing chunk numbers to
`failed_chunks`. -/
def firstPass (attempt : Nat → Nat → AttemptOutcome) :
    List Nat → Nat → Nat → List Nat → Nat × Nat × List Nat
  | [], ts, te, failed => (ts, te, failed)
  | i :: rest, ts, te, failed =>
    let o := attempt i 0
    if o.ok then firstPass attempt rest (ts + o.okCount) (te + o.errCount) failed
    else firstPass attempt rest ts te (failed ++ [i])

/-- Retry pass of `upload_sql_file_chunked` (lines 445-457): every chunk in
`failed_chunks` is attempted once more; totals are updated on success, but
the `failed_chunks` list itself is never modified. -/
def retryPass (attempt : Nat → Nat → AttemptOutcome) :
    List Nat → Nat → Nat → Nat × Nat
  | [], ts, te => (ts, te)
  | i :: rest, ts, te =>
    let o := attempt i 1
    if o.ok then retryPass attempt rest (ts + o.okCount) (te + o.errCount)
    else retryPass attempt rest ts te

/-- Run summary of the chunked railway upload: totals, the failed-chunk
count printed in the summary, and the returned overall result. -/
structure RunSummary where
  totalSuccess : Nat
  totalErrors : Nat
  failedChunksReported : Nat
  result : Bool
deriving DecidableEq

/-- Chunked path of railway `upload_sql_file_chunked` (lines 417-465) over
`n` chunks, with `attempt i a` the outcome of attempt `a` (0 = first pass,
1 = retry) on chunk `i`.  The returned result is
`len(failed_chunks) == 0`, where `failed_chunks` is the list built during
the first pass (line 465). -/
def upload_sql_file_chunked (attempt : Nat → Nat → AttemptOutcome) (n : Nat) :
    RunSummary :=
  let f := firstPass attempt (List.range' 1 n) 0 0 []
  let r := retryPass attempt f.2.2 f.1 f.2.1
  { totalSuccess := r.1, totalErrors := r.2,
    failedChunksReported := f.2.2.length, result := f.2.2.isEmpty }

/-- Exit status of railway `main` (lines 496-557): `sys.exit(1)` on a usage
error, a failed connection pre-check, or a failed database cleanup;
otherwise the function returns normally (exit 0) whatever
`upload_sql_file_chunked` returned. -/
def mainExit (argc : Nat) (connOk cleanOk _uploadOk : Bool) : Nat :=
  if argc > 2 then 1
  else if connOk = false then 1
  else if cleanOk = false then 1
  else 0

end Railway

/-- Modelled from the spec: a chunk is permanently failed when it fails on
the first attempt and fails again on the retry (spec section 4.4: "A chunk
that fails on retry is recorded as permanently failed").  This is the
spec-side notion `upload_sql_file_chunked` is compared against. -/
def permanentlyFailedSpec (attempt : Nat → Nat → Railway.AttemptOutcome)
    (n : Nat) : List Nat :=
  (List.range' 1 n).filter (fun i => !(attempt i 0).ok && !(attempt i 1).ok)

namespace Aiven

/-- Statement loop of aiven `upload_chunk` (lines 222-239): count successes
and errors; a storage-full error re-raises (aborting the chunk) only while
`error_count <= 5`, because the re-raise sits inside the
error-output-limiting guard. -/
def execStatements : List StmtRes → Nat → Nat → Nat × Nat × Bool
  | [], s, e => (s, e, false)
  | .ok :: rest, s, e => execStatements rest (s + 1) e
  | .plainErr :: rest, s, e => execStatements rest s (e + 1)
  | .storageErr :: rest, s, e =>
    if e + 1 ≤ 5 then (s, e + 1, true) else execStatements rest s (e + 1)

/-- Aiven `upload_chunk` (lines 222-275) after a successful connection: if
the statement loop re-raised, the outer handler returns `False, 0, 0`;
otherwise commit (a failure is caught, a rollback attempted) and return
`True, success_count, error_count`. -/
def upload_chunk (outcomes : List StmtRes) (commitOk : Bool) : ChunkReport :=
  let p := execStatements outcomes 0 0
  if p.2.2 then { success := false, okCount := 0, errCount := 0, rolledBack := false }
  else { success := true, okCount := p.1, errCount := p.2.1, rolledBack := !commitOk }

/-- Chunk loop of aiven `upload_sql_file_chunked` (lines 317-337): chunks
run in order; on the first chunk whose report is not successful the
function returns `False` at once, so later chunks are never attempted.
Returns the overall result and how many chunks were attempted. -/
def runChunks : List (List StmtRes × Bool) → Bool × Nat
  | [] => (true, 0)
  | c :: rest =>
    if (upload_chunk c.1 c.2).success then
      let r := runChunks rest
      (r.1, r.2 + 1)
    else (false, 1)

/-- Exit status of aiven `main` (lines 345-384): `sys.exit(1)` only on a
usage error; the cleanup result is discarded and an upload failure only
prints a message, so the process exits 0. -/
def mainExit (argc : Nat) (_uploadOk : Bool) : Nat :=
  if argc > 2 then 1 else 0

end Aiven

/-- Leading keyword of a statement in the spec's sense: the first
whitespace-delimited word of the stripped statement, uppercased.  Used only
to compare the claim's wording against the code's prefix test. -/
def leadingKeywordSpec (s : List Char) : List Char :=
  pyUpper ((pyStrip s).takeWhile (fun c => !isPySpace c))

/-- A character that cannot affect any of the scanners' control flow: not a
terminator, not a backslash, not a quote of either kind. -/
def plainChar (c : Char) : Bool :=
  !(c = ';' || c = '\\' || c = '\x27' || c = '\x22')

/-- A stream made of semicolon-terminated pieces. -/
def joinSemis (pieces : List (List Char)) : List Char :=
  (pieces.map (fun p => p ++ [';'])).flatten

/-- A statement in the shape the railway splitter writes into a chunk file
and that the re-parser can reproduce: it is a stripped, plain (quote-,
backslash- and terminator-free) text with a final `;`, and it passes the
re-parser's emission test. -/
def Railway.writtenOk (s : List Char) : Bool :=
  decide (s.getLast? = some ';') && s.dropLast.all plainChar &&
    decide (pyStrip s.dropLast = s.dropLast) && Railway.uploadEmit s.dropLast

/-- Attempt oracle for the C1 scenario: chunk 2 of 3 fails on the first
attempt (a connection-style chunk failure) and succeeds on the retry; all
other chunks succeed at once. -/
def retryScenario : Nat → Nat → Railway.AttemptOutcome :=
  fun i a => if i = 2 ∧ a = 0 then ⟨false, 0, 0⟩ else ⟨true, 10, 0⟩

/-- Chunk outcome list for the C7 counterexample: five ordinary statement
errors followed by a storage-full statement error. -/
def fiveThenStorage : List StmtRes :=
  [.plainErr, .plainErr, .plainErr, .plainErr, .plainErr, .storageErr]

namespace Railway

theorem separateStatements_eq (l : List (List Char)) :
    separateStatements l =
      (l.filter classifySchema, l.filter (fun s => !classifySchema s)) := by
  induction l with
  | nil => rfl
  | cons s rest ih =>
    simp only [separateStatements, ih, List.filter_cons]
    by_cases h : classifySchema s <;> simp [h]

theorem stmtByteSize_pos (s : List Char) : 1 ≤ stmtByteSize s := by
  simp [stmtByteSize]

theorem chunkByteSize_nil : chunkByteSize [] = 0 := rfl

theorem chunkByteSize_append (c d : List (List Char)) :
    chunkByteSize (c ++ d) = chunkByteSize c + chunkByteSize d := by
  simp [chunkByteSize]

theorem chunkByteSize_singleton (s : List Char) :
    chunkByteSize [s] = stmtByteSize s := by
  simp [chunkByteSize]

theorem chunkByteSize_eq_zero {c : List (List Char)} (h : chunkByteSize c = 0) :
    c = [] := by
  cases c with
  | nil => rfl
  | cons s rest =>
    exfalso
    have hs := stmtByteSize_pos s
    simp [chunkByteSize] at h
    omega

theorem packChunks_flatten (budget : Nat) :
    ∀ (l cur : List (List Char)) (n : Nat),
      (packChunks budget l cur n).flatten = cur ++ l := by
  intro l
  induction l with
  | nil =>
    intro cur n
    by_cases h : cur = [] <;> simp [packChunks, h]
  | cons s rest ih =>
    intro cur n
    by_cases h : n > 0 ∧ n + stmtByteSize s > budget <;>
      simp [packChunks, h, ih]

theorem packChunks_mem (budget : Nat) :
    ∀ (l cur : List (List Char)) (n : Nat),
      n = chunkByteSize cur →
      (chunkByteSize cur ≤ budget ∨ cur.length ≤ 1) →
      ∀ c ∈ packChunks budget l cur n,
        c ≠ [] ∧ (chunkByteSize c ≤ budget ∨ c.length = 1) := by
  intro l
  induction l with
  | nil =>
    intro cur n hsz hinv c hc
    by_cases h : cur = []
    · simp [packChunks, h] at hc
    · simp [packChunks, h] at hc
      rw [hc]
      refine ⟨h, ?_⟩
      rcases hinv with h1 | h1
      · exact Or.inl h1
      · right
        have hp : 0 < cur.length := List.length_pos.mpr h
        omega
  | cons s rest ih =>
    intro cur n hsz hinv c hc
    by_cases h : n > 0 ∧ n + stmtByteSize s > budget
    · simp only [packChunks, if_pos h, List.mem_cons] at hc
      rcases hc with hc | hc
      · rw [hc]
        obtain ⟨hn, _⟩ := h
        have hne : cur ≠ [] := by
          intro he
          rw [he] at hsz
          simp [chunkByteSize_nil] at hsz
          omega
        refine ⟨hne, ?_⟩
        rcases hinv with h1 | h1
        · exact Or.inl h1
        · right
          have hp : 0 < cur.length := List.length_pos.mpr hne
          omega
      · exact ih [s] (stmtByteSize s) (by simp [chunkByteSize_singleton])
          (Or.inr (by simp)) c hc
    · simp only [packChunks, if_neg h] at hc
      refine ih (cur ++ [s]) (n + stmtByteSize s) ?_ ?_ c hc
      · rw [chunkByteSize_append, chunkByteSize_singleton, hsz]
      · push_neg at h
        by_cases hn : n = 0
        · right
          have : cur = [] := chunkByteSize_eq_zero (by omega)
          simp [this]
        · left
          have := h (by omega)
          rw [chunkByteSize_append, chunkByteSize_singleton, ← hsz]
          omega

end Railway

/-- Claim C4 (counterexample): the railway planner classifies by the string
prefixes CREATE and USE, not by the leading keyword; the statement
`USED x;` has leading keyword `USED`, which is neither CREATE nor USE, so
the claim says chunk #1 must not contain it — yet chunk #1 consists of
exactly that statement. -/
theorem c4_schema_chunk_counterexample :
    Railway.planChunks 100 ["USED x;".data, "INSERT INTO t VALUES (1);".data] =
      [["USED x;".data], ["INSERT INTO t VALUES (1);".data]] ∧
    leadingKeywordSpec ("USED x;".data) ≠ "USE".data ∧
    leadingKeywordSpec ("USED x;".data) ≠ "CREATE".data := by
  refine ⟨by decide, by decide, by decide⟩

/-- Claim C4 (amended): for every statement sequence and every budget,
chunk #1 of the railway planner is exactly the statements whose uppercased,
stripped text starts with the prefix `CREATE` or `USE` — all of them,
regardless of chunk #1's byte size, and no others. -/
theorem c4_schema_chunk_amended (budget : Nat) (stmts : List (List Char)) :
    (Railway.planChunks budget stmts).head! = stmts.filter Railway.classifySchema ∧
    (∀ s ∈ stmts, Railway.classifySchema s = true →
      s ∈ (Railway.planChunks budget stmts).head!) ∧
    (∀ s ∈ (Railway.planChunks budget stmts).head!,
      Railway.classifySchema s = true ∧ s ∈ stmts) := by
  have hh : (Railway.planChunks budget stmts).head! =
      stmts.filter Railway.classifySchema := by
    simp [Railway.planChunks, Railway.separateStatements_eq]
  refine ⟨hh, ?_, ?_⟩
  · intro s hs hcl
    rw [hh]
    exact List.mem_filter.mpr ⟨hs, hcl⟩
  · intro s hs
    rw [hh] at hs
    have := List.mem_filter.mp hs
    exact ⟨this.2, this.1⟩

/-- Claim C4 witness: on a concrete input, the schema statement `USE db;`
lands in chunk #1. -/
theorem c4_schema_chunk_witness :
    "USE db;".data ∈ (Railway.planChunks 10 ["USE db;".data, "A;".data]).head! :=
  (c4_schema_chunk_amended 10 ["USE db;".data, "A;".data]).2.1
    ("USE db;".data) (by decide) (by decide)

/-- Claim C5: for every budget B > 0, every chunk after chunk #1 produced by
the railway planner either fits in B bytes or is a single statement whose
own (newline-included) size exceeds B. -/
theorem c5_chunk_budget (budget : Nat) (stmts : List (List Char))
    (_hb : 0 < budget) (c : List (List Char))
    (hc : c ∈ (Railway.planChunks budget stmts).tail) :
    Railway.chunkByteSize c ≤ budget ∨
      ∃ s, c = [s] ∧ budget < Railway.stmtByteSize s := by
  have hmem : c ∈ Railway.packChunks budget (Railway.separateStatements stmts).2 [] 0 := by
    simpa [Railway.planChunks] using hc
  have h := Railway.packChunks_mem budget (Railway.separateStatements stmts).2 [] 0
    (by simp [Railway.chunkByteSize_nil]) (Or.inr (by simp)) c hmem
  rcases h.2 with h1 | h1
  · exact Or.inl h1
  · match c, h1 with
    | [s], _ =>
      by_cases hs : Railway.stmtByteSize s ≤ budget
      · exact Or.inl (by simpa [Railway.chunkByteSize_singleton] using hs)
      · exact Or.inr ⟨s, rfl, by omega⟩

/-- Claim C5 witness: with budget 3 and two 3-byte statements, the chunk
`[A;]` is produced after chunk #1 and fits the budget. -/
theorem c5_chunk_budget_witness :
    Railway.chunkByteSize [("A;".data)] ≤ 3 ∨
      ∃ s, [("A;".data)] = [s] ∧ 3 < Railway.stmtByteSize s :=
  c5_chunk_budget 3 ["A;".data, "B;".data] (by decide) [("A;".data)] (by decide)

/-- Claim C6: for every dump and budget, concatenating the railway
chunks in order yields exactly the SCHEMA-classified statements of the
tokenized dump in their original relative order, followed by the remaining
statements in their original relative order; in particular the
concatenation is a permutation of the tokenized statement sequence. -/
theorem c6_roundtrip_order (chunk_size_mb : Nat) (content : List Char) :
    (Railway.split_sql_file chunk_size_mb content).flatten =
      (Railway.splitStatements content).filter Railway.classifySchema ++
        (Railway.splitStatements content).filter
          (fun s => !Railway.classifySchema s) ∧
    List.Perm ((Railway.split_sql_file chunk_size_mb content).flatten)
      (Railway.splitStatements content) := by
  have h : (Railway.split_sql_file chunk_size_mb content).flatten =
      (Railway.splitStatements content).filter Railway.classifySchema ++
        (Railway.splitStatements content).filter
          (fun s => !Railway.classifySchema s) := by
    simp [Railway.split_sql_file, Railway.planChunks, Railway.packChunks_flatten,
      Railway.separateStatements_eq]
  exact ⟨h, h ▸ List.filter_append_perm _ _⟩

/-- Number of statements reported successful: those whose outcome is `ok`. -/
def countOk : List StmtRes → Nat
  | [] => 0
  | .ok :: rest => countOk rest + 1
  | .plainErr :: rest => countOk rest
  | .storageErr :: rest => countOk rest

/-- Number of statements reported failed: those whose outcome is an error. -/
def countErr : List StmtRes → Nat
  | [] => 0
  | .ok :: rest => countErr rest
  | .plainErr :: rest => countErr rest + 1
  | .storageErr :: rest => countErr rest + 1

namespace Railway

theorem execStatements_eq : ∀ (l : List StmtRes) (s e : Nat),
    execStatements l s e = (s + countOk l, e + countErr l) := by
  intro l
  induction l with
  | nil => intro s e; simp [execStatements, countOk, countErr]
  | cons r rest ih =>
    intro s e
    cases r <;>
      simp only [execStatements, countOk, countErr, ih, Prod.mk.injEq,
        and_true, true_and] <;>
      omega

end Railway

namespace Aiven

theorem execStatements_no_abort : ∀ (l : List StmtRes) (s e : Nat),
    (execStatements l s e).2.2 = false →
    execStatements l s e = (s + countOk l, e + countErr l, false) := by
  intro l
  induction l with
  | nil => intro s e _; simp [execStatements, countOk, countErr]
  | cons r rest ih =>
    intro s e h
    cases r with
    | ok =>
      have h' : (execStatements rest (s + 1) e).2.2 = false := h
      have := ih (s + 1) e h'
      simp only [execStatements, this, countOk, countErr, Prod.mk.injEq,
        and_true, true_and]
      omega
    | plainErr =>
      have h' : (execStatements rest s (e + 1)).2.2 = false := h
      have := ih s (e + 1) h'
      simp only [execStatements, this, countOk, countErr, Prod.mk.injEq,
        and_true, true_and]
      omega
    | storageErr =>
      by_cases h5 : e + 1 ≤ 5
      · simp [execStatements, h5] at h
      · have h' : (execStatements rest s (e + 1)).2.2 = false := by
          simpa [execStatements, h5] using h
        have := ih s (e + 1) h'
        simp only [execStatements, if_neg h5, this, countOk, countErr,
          Prod.mk.injEq, and_true, true_and]
        omega

theorem execStatements_storage_abort (l2 : List StmtRes) :
    ∀ (l1 : List StmtRes) (s e : Nat), e + countErr l1 ≤ 4 →
      (execStatements (l1 ++ StmtRes.storageErr :: l2) s e).2.2 = true := by
  intro l1
  induction l1 with
  | nil =>
    intro s e h
    simp only [countErr] at h
    simp [execStatements, show e + 1 ≤ 5 by omega]
  | cons r rest ih =>
    intro s e h
    cases r with
    | ok =>
      rw [List.cons_append]
      exact ih (s + 1) e (by simp only [countErr] at h; omega)
    | plainErr =>
      rw [List.cons_append]
      exact ih s (e + 1) (by simp only [countErr] at h; omega)
    | storageErr =>
      rw [List.cons_append]
      have h1 : e + 1 ≤ 5 := by simp only [countErr] at h; omega
      simp [execStatements, h1]

theorem runChunks_append_fail :
    ∀ (pre : List (List StmtRes × Bool)) (c : List StmtRes × Bool)
      (post : List (List StmtRes × Bool)),
      (∀ p ∈ pre, (upload_chunk p.1 p.2).success = true) →
      (upload_chunk c.1 c.2).success = false →
      runChunks (pre ++ c :: post) = (false, pre.length + 1) := by
  intro pre
  induction pre with
  | nil =>
    intro c post _ hc
    simp [runChunks, hc]
  | cons p ps ih =>
    intro c post hgood hc
    have hp := hgood p (by simp)
    simp [runChunks, hp, ih c post (fun q hq => hgood q (by simp [hq])) hc]

end Aiven

/-- Claim C1 (code bug): in the scenario where chunk 2 of 3 fails on the
first attempt and succeeds on the retry, no chunk is permanently failed in
the spec's sense, yet `upload_sql_file_chunked` returns failure and its
summary still reports 1 failed chunk, because `failed_chunks` is never
pruned after a successful retry (the code's own line-465 comment says
"Success if no failed chunks remain" and line 455 prints that the chunk
succeeded on retry). -/
theorem c1_retry_pruning_bug :
    (Railway.upload_sql_file_chunked retryScenario 3).result = false ∧
    (Railway.upload_sql_file_chunked retryScenario 3).failedChunksReported = 1 ∧
    permanentlyFailedSpec retryScenario 3 = [] ∧
    (Railway.upload_sql_file_chunked retryScenario 3).totalSuccess = 30 := by
  refine ⟨by decide, by decide, by decide, by decide⟩

/-- Claim C2 (counterexample): a chunk whose final commit fails is still
reported successful by `upload_chunk` — in both uploader variants the
commit error is caught, a rollback is attempted, and the function returns
`True` with its statement counts. -/
theorem c2_commit_failure_counterexample :
    (Railway.upload_chunk [StmtRes.ok] false).success = true ∧
    (Railway.upload_chunk [StmtRes.ok] false).rolledBack = true ∧
    (Aiven.upload_chunk [StmtRes.ok] false).success = true ∧
    (Aiven.upload_chunk [StmtRes.ok] false).rolledBack = true := by
  refine ⟨by decide, by decide, by decide, by decide⟩

/-- Claim C2 (amended): when the final commit fails, `upload_chunk`
attempts a rollback but reports the chunk as succeeded (success flag
`True`), with the per-statement success and error counts still reported;
this holds for the railway variant always, and for the aiven variant
whenever the statement loop did not abort. -/
theorem c2_commit_failure_amended (outcomes : List StmtRes) (commitOk : Bool)
    (hcommit : commitOk = false)
    (habort : (Aiven.execStatements outcomes 0 0).2.2 = false) :
    Railway.upload_chunk outcomes commitOk =
      ⟨true, countOk outcomes, countErr outcomes, true⟩ ∧
    Aiven.upload_chunk outcomes commitOk =
      ⟨true, countOk outcomes, countErr outcomes, true⟩ := by
  constructor
  · simp [Railway.upload_chunk, Railway.execStatements_eq, hcommit]
  · rw [Aiven.upload_chunk, Aiven.execStatements_no_abort outcomes 0 0 habort]
    simp [hcommit]

/-- Claim C2 witness: concrete commit-failure chunk with one success and
one error. -/
theorem c2_commit_failure_witness :
    Railway.upload_chunk [StmtRes.ok, StmtRes.plainErr] false =
      ⟨true, 1, 1, true⟩ ∧
    Aiven.upload_chunk [StmtRes.ok, StmtRes.plainErr] false =
      ⟨true, 1, 1, true⟩ :=
  c2_commit_failure_amended [StmtRes.ok, StmtRes.plainErr] false rfl (by decide)

/-- Claim C7 (counterexample): a run in which a statement fails with a
storage-full error after five ordinary errors does not abort — the aiven
chunk swallows the critical error (the re-raise sits inside the
`error_count <= 5` output-limiting guard), the next chunk is still
attempted, and the run reports success; the railway uploader never
escalates a statement-level storage error at all. -/
theorem c7_storage_abort_counterexample :
    List.contains fiveThenStorage StmtRes.storageErr = true ∧
    Aiven.runChunks [(fiveThenStorage, true), ([StmtRes.ok], true)] = (true, 2) ∧
    (Railway.upload_chunk [StmtRes.storageErr] true).success = true := by
  refine ⟨by decide, by decide, by decide⟩

/-- Claim C7 (amended): in the aiven uploader, a statement-level
storage-full error aborts the run if and only if it is reached while at
most 4 errors preceded it in its chunk: the chunk reports failure, the run
returns failure immediately, and chunks after it are never attempted.  The
railway uploader never escalates statement-level storage errors (its
chunk always reports success after a successful connection). -/
theorem c7_storage_abort_amended (pre : List (List StmtRes × Bool))
    (c : List StmtRes × Bool) (post : List (List StmtRes × Bool))
    (l1 l2 : List StmtRes)
    (hgood : ∀ p ∈ pre, (Aiven.upload_chunk p.1 p.2).success = true)
    (hc : c.1 = l1 ++ StmtRes.storageErr :: l2)
    (herr : countErr l1 ≤ 4) :
    (Aiven.upload_chunk c.1 c.2).success = false ∧
    Aiven.runChunks (pre ++ c :: post) = (false, pre.length + 1) ∧
    (∀ (outs : List StmtRes) (commit : Bool),
      (Railway.upload_chunk outs commit).success = true) := by
  have habort : (Aiven.execStatements c.1 0 0).2.2 = true := by
    rw [hc]
    exact Aiven.execStatements_storage_abort l2 l1 0 0 (by omega)
  have hfail : (Aiven.upload_chunk c.1 c.2).success = false := by
    simp [Aiven.upload_chunk, habort]
  refine ⟨hfail, Aiven.runChunks_append_fail pre c post hgood hfail, ?_⟩
  intro outs commit
  simp [Railway.upload_chunk]

/-- Claim C7 witness: one good chunk, then a chunk with an early
storage-full error, then a chunk that is never attempted. -/
theorem c7_storage_abort_witness :
    Aiven.runChunks [([StmtRes.ok], true), ([StmtRes.storageErr], true),
      ([StmtRes.ok], true)] = (false, 2) :=
  (c7_storage_abort_amended [([StmtRes.ok], true)] ([StmtRes.storageErr], true)
    [([StmtRes.ok], true)] [] [] (by decide) rfl (by decide)).2.1

/-- Claim C8 (counterexample): with a successful connection pre-check and
cleanup but a failed upload (for example a permanently failed chunk, or a
missing input file, both of which make `upload_sql_file_chunked` return
`False`), railway `main` still exits 0; aiven `main` exits 0 on a failed
upload as well. -/
theorem c8_exit_status_counterexample :
    Railway.mainExit 2 true true false = 0 ∧
    Aiven.mainExit 2 false = 0 := by
  refine ⟨by decide, by decide⟩

/-- Claim C8 (amended): the process exits 0 on full success; it exits
non-zero only on a usage error (too many arguments) and, in the railway
variant, on a failed connection pre-check or a failed pre-upload cleanup.
An upload failure — including permanently failed chunks and a missing
input file — never changes the exit status. -/
theorem c8_exit_status_amended (connOk cleanOk uploadOk : Bool) :
    Railway.mainExit 2 connOk cleanOk uploadOk =
      (if connOk && cleanOk then 0 else 1) ∧
    Railway.mainExit 3 connOk cleanOk uploadOk = 1 ∧
    Aiven.mainExit 2 uploadOk = 0 ∧
    Aiven.mainExit 3 uploadOk = 1 := by
  cases connOk <;> cases cleanOk <;>
    simp [Railway.mainExit, Aiven.mainExit]

theorem pyStrip_cons_space {c : Char} (h : isPySpace c = true) (l : List Char) :
    pyStrip (c :: l) = pyStrip l := by
  simp [pyStrip, List.dropWhile_cons, h]

namespace Railway

theorem splitScan_plain (stm : List (List Char)) (cur : List Char) (c : Char)
    (hc : plainChar c = true) :
    splitScan ⟨stm, cur, false, false⟩ c = ⟨stm, cur ++ [c], false, false⟩ := by
  simp only [plainChar, Bool.not_eq_true', Bool.or_eq_false_iff,
    decide_eq_false_iff_not] at hc
  obtain ⟨⟨⟨h1, h2⟩, h3⟩, h4⟩ := hc
  simp [splitScan, h1, h2, h3, h4]

theorem splitScan_foldl_plain :
    ∀ (l : List Char), l.all plainChar = true →
    ∀ (stm : List (List Char)) (cur : List Char),
      l.foldl splitScan ⟨stm, cur, false, false⟩ = ⟨stm, cur ++ l, false, false⟩ := by
  intro l
  induction l with
  | nil => intro _ stm cur; simp
  | cons c l' ih =>
    intro hall stm cur
    rw [List.all_cons, Bool.and_eq_true] at hall
    rw [List.foldl_cons, splitScan_plain stm cur c hall.1, ih hall.2]
    simp

theorem splitScan_semi (stm : List (List Char)) (cur : List Char) :
    splitScan ⟨stm, cur, false, false⟩ ';' =
      ⟨stm ++ (if splitEmit (pyStrip cur) then [pyStrip cur ++ [';']] else []),
        [], false, false⟩ := by
  simp [splitScan]

theorem splitScan_stmts (st : ScanState) (c : Char) :
    (splitScan st c).stmts = st.stmts ∨
    (splitScan st c).stmts = st.stmts ++ [pyStrip st.cur ++ [';']] := by
  simp only [splitScan]
  repeat' split
  all_goals simp

theorem splitScan_foldl_endSemi :
    ∀ (l : List Char) (st : ScanState),
      (∀ s ∈ st.stmts, ∃ u, s = u ++ [';']) →
      ∀ s ∈ (l.foldl splitScan st).stmts, ∃ u, s = u ++ [';'] := by
  intro l
  induction l with
  | nil => intro st h; exact h
  | cons c l' ih =>
    intro st h
    rw [List.foldl_cons]
    refine ih (splitScan st c) ?_
    intro s hs
    rcases splitScan_stmts st c with he | he
    · exact h s (he ▸ hs)
    · rw [he, List.mem_append] at hs
      rcases hs with hs | hs
      · exact h s hs
      · exact ⟨pyStrip st.cur, by simpa using hs⟩

theorem splitStatements_aux :
    ∀ (pieces : List (List Char)) (t : List Char) (stm : List (List Char)),
      (∀ p ∈ pieces, p.all plainChar = true) → t.all plainChar = true →
      ((joinSemis pieces ++ t).foldl splitScan ⟨stm, [], false, false⟩).stmts =
        stm ++ ((pieces.map pyStrip).filter splitEmit).map (fun u => u ++ [';']) := by
  intro pieces
  induction pieces with
  | nil =>
    intro t stm _ ht
    have hfold := splitScan_foldl_plain t ht stm []
    simp [joinSemis, hfold]
  | cons p ps ih =>
    intro t stm hall ht
    have hp := hall p (by simp)
    have hps : ∀ q ∈ ps, q.all plainChar = true := fun q hq => hall q (by simp [hq])
    have hj : joinSemis (p :: ps) ++ t = p ++ (';' :: (joinSemis ps ++ t)) := by
      simp [joinSemis]
    rw [hj, List.foldl_append, splitScan_foldl_plain p hp stm [], List.nil_append,
      List.foldl_cons, splitScan_semi]
    rw [ih t _ hps ht]
    by_cases he : splitEmit (pyStrip p) = true <;>
      simp [he, List.filter_cons]

end Railway

namespace Aiven

theorem aivenScan_plain (stm : List (List Char)) (cur : List Char) (c : Char)
    (hc : plainChar c = true) :
    splitScan ⟨stm, cur, false, false⟩ c = ⟨stm, cur ++ [c], false, false⟩ := by
  simp only [plainChar, Bool.not_eq_true', Bool.or_eq_false_iff,
    decide_eq_false_iff_not] at hc
  obtain ⟨⟨⟨h1, h2⟩, h3⟩, _⟩ := hc
  simp [splitScan, h1, h2, h3]

theorem aivenScan_foldl_plain :
    ∀ (l : List Char), l.all plainChar = true →
    ∀ (stm : List (List Char)) (cur : List Char),
      l.foldl splitScan ⟨stm, cur, false, false⟩ = ⟨stm, cur ++ l, false, false⟩ := by
  intro l
  induction l with
  | nil => intro _ stm cur; simp
  | cons c l' ih =>
    intro hall stm cur
    rw [List.all_cons, Bool.and_eq_true] at hall
    rw [List.foldl_cons, aivenScan_plain stm cur c hall.1, ih hall.2]
    simp

theorem aivenScan_semi (stm : List (List Char)) (cur : List Char) :
    splitScan ⟨stm, cur, false, false⟩ ';' =
      ⟨stm ++ (if splitEmit (pyStrip cur) then [pyStrip cur] else []),
        [], false, false⟩ := by
  simp [splitScan]

theorem aivenStatements_aux :
    ∀ (pieces : List (List Char)) (t : List Char) (stm : List (List Char)),
      (∀ p ∈ pieces, p.all plainChar = true) → t.all plainChar = true →
      ((joinSemis pieces ++ t).foldl splitScan ⟨stm, [], false, false⟩).stmts =
        stm ++ (pieces.map pyStrip).filter splitEmit := by
  intro pieces
  induction pieces with
  | nil =>
    intro t stm _ ht
    have hfold := aivenScan_foldl_plain t ht stm []
    simp [joinSemis, hfold]
  | cons p ps ih =>
    intro t stm hall ht
    have hp := hall p (by simp)
    have hps : ∀ q ∈ ps, q.all plainChar = true := fun q hq => hall q (by simp [hq])
    have hj : joinSemis (p :: ps) ++ t = p ++ (';' :: (joinSemis ps ++ t)) := by
      simp [joinSemis]
    rw [hj, List.foldl_append, aivenScan_foldl_plain p hp stm [], List.nil_append,
      List.foldl_cons, aivenScan_semi]
    rw [ih t _ hps ht]
    by_cases he : splitEmit (pyStrip p) = true <;>
      simp [he, List.filter_cons]

end Aiven

namespace Railway

theorem uploadScan_plain (stm : List (List Char)) (cur : List Char)
    (sc : Option Char) (c : Char) (hc : plainChar c = true) :
    uploadScan ⟨stm, cur, false, false, sc⟩ c = ⟨stm, cur ++ [c], false, false, sc⟩ := by
  simp only [plainChar, Bool.not_eq_true', Bool.or_eq_false_iff,
    decide_eq_false_iff_not] at hc
  obtain ⟨⟨⟨h1, h2⟩, h3⟩, h4⟩ := hc
  simp [uploadScan, h1, h2, h3, h4]

theorem uploadScan_foldl_plain :
    ∀ (l : List Char), l.all plainChar = true →
    ∀ (stm : List (List Char)) (cur : List Char) (sc : Option Char),
      l.foldl uploadScan ⟨stm, cur, false, false, sc⟩ =
        ⟨stm, cur ++ l, false, false, sc⟩ := by
  intro l
  induction l with
  | nil => intro _ stm cur sc; simp
  | cons c l' ih =>
    intro hall stm cur sc
    rw [List.all_cons, Bool.and_eq_true] at hall
    rw [List.foldl_cons, uploadScan_plain stm cur sc c hall.1, ih hall.2]
    simp

theorem uploadScan_semi (stm : List (List Char)) (cur : List Char)
    (sc : Option Char) :
    uploadScan ⟨stm, cur, false, false, sc⟩ ';' =
      ⟨stm ++ (if uploadEmit (pyStrip cur) then [pyStrip cur] else []),
        [], false, false, sc⟩ := by
  simp [uploadScan]

theorem writeChunk_eq_flatten :
    ∀ (s : List Char) (rest : List (List Char)),
      writeChunk (s :: rest) = ((s :: rest).map (fun u => u ++ ['\n'])).flatten := by
  intro s rest
  induction rest generalizing s with
  | nil => simp [writeChunk, List.intercalate, List.intersperse]
  | cons t r ih =>
    have h2 : writeChunk (s :: t :: r) = s ++ ['\n'] ++ writeChunk (t :: r) := by
      simp [writeChunk, List.intercalate, List.intersperse]
    rw [h2, ih t]
    simp

theorem parseStatements_aux :
    ∀ (stmts : List (List Char)) (stm : List (List Char)) (cur : List Char),
      (cur = [] ∨ cur = ['\n']) →
      (∀ s ∈ stmts, writtenOk s = true) →
      ((stmts.map (fun q => q ++ ['\n'])).flatten.foldl uploadScan
          ⟨stm, cur, false, false, none⟩).stmts = stm ++ stmts.map List.dropLast := by
  intro stmts
  induction stmts with
  | nil =>
    intro stm cur hcur _
    rcases hcur with h | h <;> subst h
    · simp
    · have := uploadScan_foldl_plain ['\n'] (by decide) stm [] none
      simp [this]
  | cons s rest ih =>
    intro stm cur hcur hok
    have hs := hok s (by simp)
    simp only [writtenOk, Bool.and_eq_true, decide_eq_true_eq] at hs
    obtain ⟨⟨⟨hlast, hplain⟩, hstrip⟩, hemit⟩ := hs
    have hdecomp : s.dropLast ++ [';'] = s :=
      List.dropLast_append_getLast? ';' (by simp [hlast])
    have hsplit : ((s :: rest).map (fun q => q ++ ['\n'])).flatten =
        s.dropLast ++ (';' :: '\n' :: (rest.map (fun q => q ++ ['\n'])).flatten) := by
      rw [List.map_cons, List.flatten_cons, ← hdecomp]
      simp
    have hstrip2 : pyStrip (cur ++ s.dropLast) = s.dropLast := by
      rcases hcur with h | h <;> subst h
      · simpa using hstrip
      · rw [show (['\n'] ++ s.dropLast) = '\n' :: s.dropLast from rfl,
          pyStrip_cons_space (by decide)]
        exact hstrip
    rw [hsplit, List.foldl_append, uploadScan_foldl_plain s.dropLast hplain stm cur none,
      List.foldl_cons, uploadScan_semi, hstrip2, if_pos hemit,
      List.foldl_cons, uploadScan_plain _ _ _ '\n' (by decide),
      List.nil_append, ih (stm ++ [s.dropLast]) ['\n'] (Or.inr rfl)
        (fun q hq => hok q (by simp [hq]))]
    simp

end Railway

/-- Claim C3 (counterexample): the aiven tokenizer tracks only single
quotes, so the semicolon inside the properly double-quoted literal `"a;b"`
is treated as a statement terminator and the input splits into two
Statements instead of one. -/
theorem c3_quoted_semicolon_counterexample :
    Aiven.splitStatements ("INSERT INTO t VALUES (\x22a;b\x22);".data) =
      ["INSERT INTO t VALUES (\x22a".data, "b\x22)".data] ∧
    (Aiven.splitStatements ("INSERT INTO t VALUES (\x22a;b\x22);".data)).length ≠ 1 := by
  refine ⟨by decide, by decide⟩

/-- Claim C3 (amended): in each of the three tokenizers a `;` scanned while
the scanner's in-string flag is set never ends a statement; single-quoted
literals (including the escaped-quote case) keep that flag set in all
three, so the example input yields exactly one Statement everywhere, but
double-quoted literals are tracked only by the two railway scanners — the
aiven scanner ignores double quotes entirely. -/
theorem c3_quoted_semicolon_amended (s1 s2 : ScanState) (s3 : QuoteScanState)
    (h1 : s1.inString = true) (h2 : s2.inString = true) (h3 : s3.inString = true) :
    (Railway.splitScan s1 ';').stmts = s1.stmts ∧
    (Aiven.splitScan s2 ';').stmts = s2.stmts ∧
    (Railway.uploadScan s3 ';').stmts = s3.stmts ∧
    Railway.parseStatements
        ("INSERT INTO t VALUES (\x27a;b\x27, \x27c\\\x27d;e\x27);".data) =
      [("INSERT INTO t VALUES (\x27a;b\x27, \x27c\\\x27d;e\x27)".data)] ∧
    Aiven.splitStatements
        ("INSERT INTO t VALUES (\x27a;b\x27, \x27c\\\x27d;e\x27);".data) =
      [("INSERT INTO t VALUES (\x27a;b\x27, \x27c\\\x27d;e\x27)".data)] ∧
    Railway.splitStatements
        ("INSERT INTO t VALUES (\x27a;b\x27, \x27c\\\x27d;e\x27);".data) =
      [("INSERT INTO t VALUES (\x27a;b\x27, \x27c\\\x27d;e\x27);".data)] := by
  obtain ⟨a1, b1, c1, d1⟩ := s1
  obtain ⟨a2, b2, c2, d2⟩ := s2
  obtain ⟨a3, b3, c3, d3, e3⟩ := s3
  simp only at h1 h2 h3
  subst h1; subst h2; subst h3
  refine ⟨?_, ?_, ?_, by decide, by decide, by decide⟩
  · cases d1 <;> simp [Railway.splitScan]
  · cases d2 <;> simp [Aiven.splitScan]
  · cases d3 <;> simp [Railway.uploadScan]

/-- Claim C3 witness: concrete in-string states for each scanner. -/
theorem c3_quoted_semicolon_witness :
    (Railway.splitScan ⟨[], "a".data, true, false⟩ ';').stmts = [] ∧
    (Aiven.splitScan ⟨[], "a".data, true, false⟩ ';').stmts = [] ∧
    (Railway.uploadScan ⟨[], "a".data, true, false, some '\x27'⟩ ';').stmts = [] ∧
    Railway.parseStatements
        ("INSERT INTO t VALUES (\x27a;b\x27, \x27c\\\x27d;e\x27);".data) =
      [("INSERT INTO t VALUES (\x27a;b\x27, \x27c\\\x27d;e\x27)".data)] ∧
    Aiven.splitStatements
        ("INSERT INTO t VALUES (\x27a;b\x27, \x27c\\\x27d;e\x27);".data) =
      [("INSERT INTO t VALUES (\x27a;b\x27, \x27c\\\x27d;e\x27)".data)] ∧
    Railway.splitStatements
        ("INSERT INTO t VALUES (\x27a;b\x27, \x27c\\\x27d;e\x27);".data) =
      [("INSERT INTO t VALUES (\x27a;b\x27, \x27c\\\x27d;e\x27);".data)] :=
  c3_quoted_semicolon_amended ⟨[], "a".data, true, false⟩
    ⟨[], "a".data, true, false⟩ ⟨[], "a".data, true, false, some '\x27'⟩
    rfl rfl rfl

/-- Claim C9 (counterexample): the railway splitter's emission test checks
only `--`, not `/*`: a block-comment statement is emitted, where the claim
says any text starting with `/*` is dropped. -/
theorem c9_emit_rule_counterexample :
    Railway.splitStatements ("/\x2a c \x2a/;".data) = [("/\x2a c \x2a/;".data)] ∧
    ("/\x2a".data).isPrefixOf ("/\x2a c \x2a/;".data) = true := by
  refine ⟨by decide, by decide⟩

/-- Claim C9 (amended): for any stream made of semicolon-terminated pieces
of plain text followed by unterminated trailing text, the aiven tokenizer
emits exactly the stripped pieces that are non-empty and do not start with
`--` or `/*`; the railway splitter applies the same rule but without the
`/*` test (and re-appends the terminator); in both, empty statements are
dropped and the trailing text is discarded. -/
theorem c9_emit_rule_amended (pieces : List (List Char)) (t : List Char)
    (hp : ∀ p ∈ pieces, p.all plainChar = true) (ht : t.all plainChar = true) :
    Aiven.splitStatements (joinSemis pieces ++ t) =
      (pieces.map pyStrip).filter Aiven.splitEmit ∧
    Railway.splitStatements (joinSemis pieces ++ t) =
      ((pieces.map pyStrip).filter Railway.splitEmit).map (fun u => u ++ [';']) := by
  constructor
  · have h := Aiven.aivenStatements_aux pieces t [] hp ht
    simpa [Aiven.splitStatements, ScanState.init] using h
  · have h := Railway.splitStatements_aux pieces t [] hp ht
    simpa [Railway.splitStatements, ScanState.init] using h

/-- Claim C9 witness: four pieces — ordinary text, blank, a line comment, a
block comment — with trailing junk; the aiven tokenizer keeps one
statement, the railway splitter keeps the block comment too. -/
theorem c9_emit_rule_witness :
    Aiven.splitStatements (joinSemis [(" A ".data), ("  ".data),
        ("\x2d\x2d x".data), ("/\x2a c \x2a/".data)] ++ "junk".data) =
      ["A".data] ∧
    Railway.splitStatements (joinSemis [(" A ".data), ("  ".data),
        ("\x2d\x2d x".data), ("/\x2a c \x2a/".data)] ++ "junk".data) =
      ["A;".data, ("/\x2a c \x2a/;".data)] :=
  c9_emit_rule_amended [(" A ".data), ("  ".data), ("\x2d\x2d x".data),
    ("/\x2a c \x2a/".data)] ("junk".data) (by decide) (by decide)

/-- Claim C10 (counterexample): the planner places the block-comment
statement `/* c */;` in a data chunk (the splitter emits it, since it
filters only `--`), but re-tokenizing the written chunk file drops it — the
re-parser filters `/*` — so the re-parsed statements are not the planner's
statements with `;` stripped. -/
theorem c10_writer_reparser_counterexample :
    Railway.split_sql_file 15
        ("/\x2a c \x2a/;INSERT INTO t VALUES (1);".data) =
      [[], [("/\x2a c \x2a/;".data), ("INSERT INTO t VALUES (1);".data)]] ∧
    Railway.parseStatements (Railway.writeChunk
        [("/\x2a c \x2a/;".data), ("INSERT INTO t VALUES (1);".data)]) =
      ["INSERT INTO t VALUES (1)".data] ∧
    Railway.parseStatements (Railway.writeChunk
        [("/\x2a c \x2a/;".data), ("INSERT INTO t VALUES (1);".data)]) ≠
      [("/\x2a c \x2a/;".data), ("INSERT INTO t VALUES (1);".data)].map
        List.dropLast := by
  refine ⟨by decide, by decide, by decide⟩

/-- Claim C10 (amended): every statement the railway splitter emits ends
with `;` (and the writer separates them with newlines); re-tokenizing a
written chunk file reproduces the planner's statements with the trailing
`;` stripped, in order, provided each statement is stripped plain text
ending in `;` that passes the re-parser's emission test (in particular not
a `/*` block comment and not a `DELIMITER` line). -/
theorem c10_writer_reparser_amended (dump : List Char)
    (stmts : List (List Char))
    (h : ∀ s ∈ stmts, Railway.writtenOk s = true) :
    (∀ s ∈ Railway.splitStatements dump, ∃ u, s = u ++ [';']) ∧
    Railway.parseStatements (Railway.writeChunk stmts) =
      stmts.map List.dropLast := by
  constructor
  · intro s hs
    exact Railway.splitScan_foldl_endSemi dump ScanState.init
      (by simp [ScanState.init]) s hs
  · cases stmts with
    | nil => decide
    | cons s rest =>
      rw [Railway.parseStatements, Railway.writeChunk_eq_flatten]
      simp only [QuoteScanState.init]
      rw [Railway.parseStatements_aux (s :: rest) [] [] (Or.inl rfl) h]
      simp

/-- Claim C10 witness: a two-statement chunk round-trips through the writer
and the re-parser; the splitter's statements all end with `;`. -/
theorem c10_writer_reparser_witness :
    Railway.parseStatements (Railway.writeChunk
        [("INSERT INTO t VALUES (1);".data), ("B;".data)]) =
      [("INSERT INTO t VALUES (1);".data), ("B;".data)].map List.dropLast :=
  (c10_writer_reparser_amended ("A;B".data)
    [("INSERT INTO t VALUES (1);".data), ("B;".data)] (by decide)).2
